import Mathlib

/-!
Shallow embedding of the CHIP-8 emulator core from `src/chip8.rs`,
`src/constants.rs` and `src/sleep.rs` of the `chip8_rs` repository.

Machine integers are modelled as `Nat` with an explicit `% 2^w` at the
points where the Rust code performs wrapping arithmetic.  A Rust panic
(an arithmetic underflow, or an out-of-bounds array or slice index) is
modelled by `Option`: `none` is a panic, `some s` a normal completion.
The `pixels` RGBA frame is addressed by the code one CHIP-8 cell at a
time; for every cell it writes `0` or `255` into the red channel byte and
tests a cell with `fb[pixel_coord] == 255`, so the frame is embedded as a
`Fin CHIP8_HEIGHT → Fin CHIP8_WIDTH → Nat` grid of red-channel bytes.
Wall-clock state (`Instant`) cannot be embedded; elapsed durations are
passed as explicit inputs (in nanoseconds) where the code measures them,
and the random byte drawn by `Rnd` is likewise an explicit input.
-/

namespace Chip8Emu

/-- src/constants.rs line 1: `pub const CHIP8_WIDTH: usize = 64;` -/
def CHIP8_WIDTH : Nat := 64

/-- src/constants.rs line 2: `pub const CHIP8_HEIGHT: usize = 32;` -/
def CHIP8_HEIGHT : Nat := 32

/-- src/constants.rs line 5: `pub const CHIP8_MEMORY_SIZE: usize = 4 * 1024;` -/
def CHIP8_MEMORY_SIZE : Nat := 4 * 1024

/-- src/constants.rs line 6: `pub const CHIP8_SPEED_HZ: u32 = 1000;` -/
def CHIP8_SPEED_HZ : Nat := 1000

/-- src/constants.rs line 7: `pub const IPS_MEASURE_CYCLE: u32 = CHIP8_SPEED_HZ;` -/
def IPS_MEASURE_CYCLE : Nat := CHIP8_SPEED_HZ

/-- The machine state of `struct Chip8` (src/chip8.rs lines 19-36), without
the fields that belong to external collaborators (`pixels` is kept as the
red-channel grid `fb`, the window `keyboard_map` and the wall-clock `timer`
are dropped).  `v`, `delay_timer`, `sound_timer`, `sp` hold u8 values, `i`
and `pc` hold u16 values, `cycle_count` holds a u32 value, all as `Nat`.
`memory` is the 4096-byte array; indices outside it do not exist in Rust
and every access is bounds-guarded in the embedding. -/
structure Chip8 where
  v : Fin 16 → Nat
  i : Nat
  delay_timer : Nat
  sound_timer : Nat
  pc : Nat
  sp : Nat
  stack : Fin 16 → Nat
  fb : Fin CHIP8_HEIGHT → Fin CHIP8_WIDTH → Nat
  memory : Nat → Nat
  keypad : Fin 16 → Bool
  key_pressed : Option Nat
  cycle_count : Nat
  hz : Nat

/-- `enum Instruction` (src/chip8.rs lines 41-78).  `Reg = u8` register
indices are produced by `decode` only from 4-bit nibbles, so they are
embedded as `Fin 16`; `Addr = u16` addresses and 8-bit immediates are
`Nat`. -/
inductive Instruction where
  | Nop
  | Clear
  | Return
  | Jump (addr : Nat)
  | Call (addr : Nat)
  | LoadI (addr : Nat)
  | JumpOff (addr : Nat)
  | AddI (reg : Fin 16)
  | LoadRegs (reg : Fin 16)
  | StoreRegs (reg : Fin 16)
  | StoreBcd (reg : Fin 16)
  | SetSpriteAddr (reg : Fin 16)
  | SkipPressed (reg : Fin 16)
  | SkipNotPressed (reg : Fin 16)
  | WaitKeypress (reg : Fin 16)
  | LoadFromDelayTimer (reg : Fin 16)
  | LoadDelayTimer (reg : Fin 16)
  | LoadSoundTimer (reg : Fin 16)
  | Shl (reg : Fin 16)
  | Shr (reg : Fin 16)
  | SkipEq (reg0 reg1 : Fin 16)
  | SkipEqIm (reg : Fin 16) (value : Nat)
  | SkipNe (reg0 reg1 : Fin 16)
  | SkipNeIm (reg : Fin 16) (value : Nat)
  | LoadIm (reg : Fin 16) (value : Nat)
  | AddIm (reg : Fin 16) (value : Nat)
  | Move (dst src : Fin 16)
  | Or (srcDst src : Fin 16)
  | And (srcDst src : Fin 16)
  | Xor (srcDst src : Fin 16)
  | Add (srcDst src : Fin 16)
  | Sub (srcDst src : Fin 16)
  | SubN (srcDst src : Fin 16)
  | Rnd (reg : Fin 16) (value : Nat)
  | Draw (x y : Fin 16) (n : Nat)

/-- u16 wraparound, applied where the Rust code adds or multiplies u16
values. -/
def u16mod (n : Nat) : Nat := n % 65536

/-- Guarded read of `self.memory[a]`; `none` embeds the index panic past
the 4096-byte array. -/
def memRead (s : Chip8) (a : Nat) : Option Nat :=
  if a < CHIP8_MEMORY_SIZE then some (s.memory a) else none

/-- Guarded write of `self.memory[a] = value`; `none` embeds the index
panic past the 4096-byte array. -/
def memWrite (s : Chip8) (a value : Nat) : Option Chip8 :=
  if a < CHIP8_MEMORY_SIZE then
    some { s with memory := fun b => if b = a then value else s.memory b }
  else none

/-- Row index of the cell touched by sprite row `j` drawn at vertical
position `yv`: `(y + j) % CHIP8_HEIGHT` (src/chip8.rs line 454). -/
def rowFin (yv j : Nat) : Fin CHIP8_HEIGHT :=
  ⟨(yv + j) % CHIP8_HEIGHT, Nat.mod_lt _ (by decide)⟩

/-- Column index of the cell touched by sprite column `k` drawn at
horizontal position `xv`: `(x + i) % CHIP8_WIDTH` (src/chip8.rs line 456). -/
def colFin (xv k : Nat) : Fin CHIP8_WIDTH :=
  ⟨(xv + k) % CHIP8_WIDTH, Nat.mod_lt _ (by decide)⟩

/-- Bit `k` (from the left) of a sprite row byte:
`(line >> (sprite_len - 1 - i)) & 0x1` (src/chip8.rs line 460). -/
def spriteBit (line k : Nat) : Nat := (line >>> (8 - 1 - k)) &&& 1

/-- One iteration of the inner pixel loop of the `Draw` arm
(src/chip8.rs lines 455-474) acting on the pair (frame grid, `v[0xf]`):
XOR the sprite bit into the cell and set the collision flag when both the
old cell value and the sprite bit are set. -/
def drawCell (xv : Nat) (yoff : Fin CHIP8_HEIGHT) (line k : Nat)
    (acc : (Fin CHIP8_HEIGHT → Fin CHIP8_WIDTH → Nat) × Nat) :
    (Fin CHIP8_HEIGHT → Fin CHIP8_WIDTH → Nat) × Nat :=
  let xoff := colFin xv k
  let old_value := if acc.1 yoff xoff = 255 then 1 else 0
  let sprite_value := spriteBit line k
  let new_val := sprite_value ^^^ old_value
  let written := if new_val = 1 then 255 else 0
  (fun r c => if r = yoff ∧ c = xoff then written else acc.1 r c,
   if old_value = 1 ∧ sprite_value = 1 then 1 else acc.2)

/-- The inner loop `for i in 0..sprite_len` of the `Draw` arm over one
sprite row (src/chip8.rs lines 455-474). -/
def drawRow (xv : Nat) (yoff : Fin CHIP8_HEIGHT) (line : Nat)
    (acc : (Fin CHIP8_HEIGHT → Fin CHIP8_WIDTH → Nat) × Nat) :
    (Fin CHIP8_HEIGHT → Fin CHIP8_WIDTH → Nat) × Nat :=
  (List.range 8).foldl (fun a k => drawCell xv yoff line k a) acc

/-- The outer loop `for (j, line) in sprite.iter().enumerate()` of the
`Draw` arm (src/chip8.rs lines 453-475); row `j` uses the sprite byte
`memory[i + j]`. -/
def drawSprite (mem : Nat → Nat) (i xv yv n : Nat)
    (acc : (Fin CHIP8_HEIGHT → Fin CHIP8_WIDTH → Nat) × Nat) :
    (Fin CHIP8_HEIGHT → Fin CHIP8_WIDTH → Nat) × Nat :=
  (List.range n).foldl (fun a j => drawRow xv (rowFin yv j) (mem (i + j)) a) acc

/-- The `match` body of `Chip8::execute` (src/chip8.rs lines 250-477).
`rnd` is the byte sampled by `rand::thread_rng().gen_range(0..=255)` in the
`Rnd` arm.  `none` embeds a Rust panic:
* `Return` with `sp = 0` underflows the u8 `sp` (debug panic; in release
  it wraps to 255 and `stack[255]` is out of bounds);
* `Call` with `sp ≥ 16` writes `stack[sp]` out of bounds;
* keypad indexing with a key value above 15 is out of bounds;
* memory reads and writes past 4096 bytes are out of bounds, and the
  `Draw` sprite slice `memory[i..(i + n as u16) as usize]` panics unless
  `i + n ≤ 4096` (a wrapped end below `i` is also a panic). -/
def executeInsn : Instruction → Nat → Chip8 → Option Chip8
  | .Nop, _, s => some s
  | .Clear, _, s => some { s with fb := fun _ _ => 0 }
  | .Return, _, s =>
      let spw := (s.sp + 255) % 256
      if h : spw < 16 then
        some { s with sp := spw, pc := s.stack ⟨spw, h⟩ }
      else none
  | .Jump addr, _, s => some { s with pc := addr }
  | .Call addr, _, s =>
      if h : s.sp < 16 then
        some { s with
                 stack := fun q => if q = (⟨s.sp, h⟩ : Fin 16) then s.pc else s.stack q,
                 sp := (s.sp + 1) % 256,
                 pc := addr }
      else none
  | .LoadI addr, _, s => some { s with i := addr }
  | .JumpOff addr, _, s => some { s with pc := u16mod (s.v 0 + addr) }
  | .AddI reg, _, s => some { s with i := u16mod (s.i + s.v reg) }
  | .LoadRegs reg, _, s =>
      (List.range (reg.val + 1)).foldlM
        (fun t j =>
          (memRead t (t.i + j)).map fun value =>
            { t with v := fun q => if q.val = j then value else t.v q })
        s
  | .StoreRegs reg, _, s =>
      (List.range (reg.val + 1)).foldlM
        (fun t j => memWrite t (t.i + j) (t.v ⟨j % 16, Nat.mod_lt _ (by decide)⟩))
        s
  | .StoreBcd reg, _, s => do
      let value := s.v reg
      let s1 ← memWrite s (u16mod (s.i + 2)) (value % 10)
      let s2 ← memWrite s1 (u16mod (s1.i + 1)) (value / 10 % 10)
      memWrite s2 (u16mod (s2.i + 0)) (value / 10 / 10 % 10)
  | .SetSpriteAddr reg, _, s =>
      let digit := s.v reg
      some { s with i := u16mod (digit * 5) }
  | .SkipPressed reg, _, s =>
      let key := s.v reg
      if h : key < 16 then
        some (if s.keypad ⟨key, h⟩ then { s with pc := u16mod (s.pc + 2) } else s)
      else none
  | .SkipNotPressed reg, _, s =>
      let key := s.v reg
      if h : key < 16 then
        some (if s.keypad ⟨key, h⟩ then s else { s with pc := u16mod (s.pc + 2) })
      else none
  | .WaitKeypress reg, _, s =>
      match s.key_pressed with
      | some key =>
          if h : key < 16 then
            some { s with
                     keypad := fun q => if q = (⟨key, h⟩ : Fin 16) then false else s.keypad q,
                     v := fun q => if q = reg then key % 256 else s.v q }
          else none
      | none => some { s with pc := (s.pc + 65534) % 65536 }
  | .LoadFromDelayTimer reg, _, s =>
      some { s with v := fun q => if q = reg then s.delay_timer else s.v q }
  | .LoadDelayTimer reg, _, s => some { s with delay_timer := s.v reg }
  | .LoadSoundTimer reg, _, s => some { s with sound_timer := s.v reg }
  | .Shl reg, _, s =>
      let vf := (s.v reg >>> 7) &&& 1
      let shifted := (s.v reg <<< 1) % 256
      some { s with
               v := fun q =>
                 if q = (15 : Fin 16) then vf
                 else if q = reg then shifted else s.v q }
  | .Shr reg, _, s =>
      let vf := s.v reg &&& 1
      let shifted := s.v reg >>> 1
      some { s with
               v := fun q =>
                 if q = (15 : Fin 16) then vf
                 else if q = reg then shifted else s.v q }
  | .SkipEq reg0 reg1, _, s =>
      some (if s.v reg0 = s.v reg1 then { s with pc := u16mod (s.pc + 2) } else s)
  | .SkipEqIm reg value, _, s =>
      some (if s.v reg = value then { s with pc := u16mod (s.pc + 2) } else s)
  | .SkipNe reg0 reg1, _, s =>
      some (if s.v reg0 ≠ s.v reg1 then { s with pc := u16mod (s.pc + 2) } else s)
  | .SkipNeIm reg value, _, s =>
      some (if s.v reg ≠ value then { s with pc := u16mod (s.pc + 2) } else s)
  | .LoadIm reg value, _, s =>
      some { s with v := fun q => if q = reg then value else s.v q }
  | .AddIm reg value, _, s =>
      some { s with v := fun q => if q = reg then (s.v reg + value) % 256 else s.v q }
  | .Move dst src, _, s =>
      some { s with v := fun q => if q = dst then s.v src else s.v q }
  | .Or srcDst src, _, s =>
      some { s with v := fun q => if q = srcDst then s.v srcDst ||| s.v src else s.v q }
  | .And srcDst src, _, s =>
      some { s with v := fun q => if q = srcDst then s.v srcDst &&& s.v src else s.v q }
  | .Xor srcDst src, _, s =>
      some { s with v := fun q => if q = srcDst then s.v srcDst ^^^ s.v src else s.v q }
  | .Add srcDst src, _, s =>
      let sum := s.v srcDst + s.v src
      some { s with
               v := fun q =>
                 if q = (15 : Fin 16) then (if 256 ≤ sum then 1 else 0)
                 else if q = srcDst then sum % 256 else s.v q }
  | .Sub srcDst src, _, s =>
      let a := s.v srcDst
      let b := s.v src
      some { s with
               v := fun q =>
                 if q = (15 : Fin 16) then (if a < b then 0 else 1)
                 else if q = srcDst then (a + 256 - b) % 256 else s.v q }
  | .SubN srcDst src, _, s =>
      let a := s.v srcDst
      let b := s.v src
      some { s with
               v := fun q =>
                 if q = (15 : Fin 16) then (if b < a then 0 else 1)
                 else if q = srcDst then (b + 256 - a) % 256 else s.v q }
  | .Rnd reg value, rnd, s =>
      some { s with v := fun q => if q = reg then rnd &&& value else s.v q }
  | .Draw x y n, _, s =>
      let xv := s.v x
      let yv := s.v y
      if s.i + n ≤ CHIP8_MEMORY_SIZE then
        let res := drawSprite s.memory s.i xv yv n (s.fb, s.v (15 : Fin 16))
        some { s with
                 fb := res.1,
                 v := fun q => if q = (15 : Fin 16) then res.2 else s.v q }
      else none

/-- `Chip8::execute` (src/chip8.rs lines 249-482): the instruction `match`
followed by `self.key_pressed = None;`, which runs for every instruction
that completes without a panic. -/
def execute (insn : Instruction) (rnd : Nat) (s : Chip8) : Option Chip8 :=
  (executeInsn insn rnd s).map fun t => { t with key_pressed := none }

/-- `Chip8::decode` (src/chip8.rs lines 180-247).  The four nibbles of the
big-endian word `w` are `w / 4096 % 16`, `w / 256 % 16`, `w / 16 % 16` and
`w % 16` (the `(insn >> k) & 0xF` of `nibbles`, src/chip8.rs lines 10-17);
`kk = w % 256` and `nnn = w % 4096` are the `& 0xFF` / `& 0xFFF` masks.
Every unmatched pattern is `Nop`. -/
def decode (w : Nat) : Instruction :=
  let x : Fin 16 := ⟨w / 256 % 16, Nat.mod_lt _ (by decide)⟩
  let y : Fin 16 := ⟨w / 16 % 16, Nat.mod_lt _ (by decide)⟩
  let kk := w % 256
  let nnn := w % 4096
  match w / 4096 % 16, w / 256 % 16, w / 16 % 16, w % 16 with
  | 0, 0, 14, 0 => .Clear
  | 0, 0, 14, 14 => .Return
  | 1, _, _, _ => .Jump nnn
  | 2, _, _, _ => .Call nnn
  | 3, _, _, _ => .SkipEqIm x kk
  | 4, _, _, _ => .SkipNeIm x kk
  | 5, _, _, 0 => .SkipEq x y
  | 6, _, _, _ => .LoadIm x kk
  | 7, _, _, _ => .AddIm x kk
  | 8, _, _, 0 => .Move x y
  | 8, _, _, 1 => .Or x y
  | 8, _, _, 2 => .And x y
  | 8, _, _, 3 => .Xor x y
  | 8, _, _, 4 => .Add x y
  | 8, _, _, 5 => .Sub x y
  | 8, _, _, 6 => .Shr x
  | 8, _, _, 7 => .SubN x y
  | 8, _, _, 14 => .Shl x
  | 9, _, _, 0 => .SkipNe x y
  | 10, _, _, _ => .LoadI nnn
  | 11, _, _, _ => .JumpOff nnn
  | 12, _, _, _ => .Rnd x kk
  | 13, _, _, _ => .Draw x y (w % 16)
  | 14, _, 9, 14 => .SkipPressed x
  | 14, _, 10, 1 => .SkipNotPressed x
  | 15, _, 0, 7 => .LoadFromDelayTimer x
  | 15, _, 0, 10 => .WaitKeypress x
  | 15, _, 1, 5 => .LoadDelayTimer x
  | 15, _, 1, 8 => .LoadSoundTimer x
  | 15, _, 1, 14 => .AddI x
  | 15, _, 2, 9 => .SetSpriteAddr x
  | 15, _, 3, 3 => .StoreBcd x
  | 15, _, 5, 5 => .StoreRegs x
  | 15, _, 6, 5 => .LoadRegs x
  | _, _, _, _ => .Nop

/-- `Chip8::fetch` (src/chip8.rs lines 168-178): the big-endian word
`memory[pc] * 256 + memory[pc + 1]`, then `pc += 2`.  The bounds guards on
both byte reads embed the array index panics. -/
def fetch (s : Chip8) : Option (Nat × Chip8) := do
  let hi ← memRead s s.pc
  let lo ← memRead s (s.pc + 1)
  some (hi * 256 + lo, { s with pc := s.pc + 2 })

/-- The timer gate of `Chip8::step` (src/chip8.rs lines 490-494): when
`cycle_count % (hz / 60) == 0`, both timers are decremented with
`saturating_sub(1)` (truncated `Nat` subtraction).  `none` embeds the
division-by-zero panic of the `%` when `hz / 60 == 0` (`hz < 60`). -/
def timerTick (s : Chip8) : Option Chip8 :=
  if s.hz / 60 = 0 then none
  else if s.cycle_count % (s.hz / 60) = 0 then
    some { s with
             delay_timer := s.delay_timer - 1,
             sound_timer := s.sound_timer - 1 }
  else some s

/-- `Chip8::step` (src/chip8.rs lines 484-501): fetch, decode, execute,
increment the wrapping u32 cycle counter, then run the timer gate once.
The trailing instructions-per-second measurement block (lines 495-500)
only logs and resets the wall-clock `timer` field, which is outside the
embedded state, so it is omitted. -/
def step (rnd : Nat) (s : Chip8) : Option Chip8 := do
  let f ← fetch s
  let s2 ← execute (decode f.1) rnd f.2
  timerTick { s2 with cycle_count := (s2.cycle_count + 1) % 4294967296 }

/-- `struct Sleeper` (src/sleep.rs lines 5-10) without the wall-clock
`sleep_timer` field; the three `Duration` fields are nanosecond counts. -/
structure Sleeper where
  sleep_duty_cycle : Nat
  sleep_threshold : Nat
  sleep_debt : Nat

/-- `Sleeper::sleep_internal` (src/sleep.rs lines 59-66): when the debt
exceeds the threshold, `thread::sleep(self.sleep_debt)` runs and the debt
resets to zero.  The second component records the requested sleep
duration (`none` when no sleep happened). -/
def Sleeper.sleepInternal (sl : Sleeper) : Sleeper × Option Nat :=
  if sl.sleep_threshold < sl.sleep_debt then
    ({ sl with sleep_debt := 0 }, some sl.sleep_debt)
  else (sl, none)

/-- `Sleeper::sleep` (src/sleep.rs lines 22-57).  `elapsed` is the
measured `self.sleep_timer.elapsed()` in nanoseconds.
`checked_sub` yields `Some (duty - elapsed)` exactly when
`elapsed <= duty`; in that branch the difference is added to the debt and
`sleep_internal` runs.  Otherwise the slowdown is subtracted from the debt
when it fits, the debt resets to zero when it does not, and the function
returns without sleeping. -/
def Sleeper.sleep (sl : Sleeper) (elapsed : Nat) : Sleeper × Option Nat :=
  if elapsed ≤ sl.sleep_duty_cycle then
    let sl1 := { sl with
                   sleep_debt := sl.sleep_debt + (sl.sleep_duty_cycle - elapsed) }
    sl1.sleepInternal
  else
    let slowdown := elapsed - sl.sleep_duty_cycle
    if slowdown ≤ sl.sleep_debt then
      ({ sl with sleep_debt := sl.sleep_debt - slowdown }, none)
    else ({ sl with sleep_debt := 0 }, none)

/-- Value of `v[x]` after a possibly-panicking execution (999 on a panic,
an impossible u8 value). -/
def vOf (o : Option Chip8) (x : Fin 16) : Nat :=
  match o with
  | some t => t.v x
  | none => 999

/-- Value of `i` after a possibly-panicking execution. -/
def iOf (o : Option Chip8) : Nat :=
  match o with
  | some t => t.i
  | none => 999999

/-- Value of `pc` after a possibly-panicking execution. -/
def pcOf (o : Option Chip8) : Nat :=
  match o with
  | some t => t.pc
  | none => 999999

/-- Value of `keypad[k]` after a possibly-panicking execution. -/
def keypadOf (o : Option Chip8) (k : Fin 16) : Bool :=
  match o with
  | some t => t.keypad k
  | none => true

/-- Red-channel byte of a framebuffer cell after a possibly-panicking
execution. -/
def fbOf (o : Option Chip8) (r : Fin CHIP8_HEIGHT) (c : Fin CHIP8_WIDTH) : Nat :=
  match o with
  | some t => t.fb r c
  | none => 999

/-- A concrete machine state holding the zeroed fields that `Chip8::new`
initializes (src/chip8.rs lines 102-118): registers, stack, timers,
keypad and framebuffer cleared, `pc = 0x200`, `sp = 0`,
`hz = CHIP8_SPEED_HZ`, no pending key event.  The font table and a loaded
ROM are irrelevant to the concrete checks below, so `memory` is left all
zeroes. -/
def baseState : Chip8 where
  v := fun _ => 0
  i := 0
  delay_timer := 0
  sound_timer := 0
  pc := 0x200
  sp := 0
  stack := fun _ => 0
  fb := fun _ _ => 0
  memory := fun _ => 0
  keypad := fun _ => false
  key_pressed := none
  cycle_count := 0
  hz := CHIP8_SPEED_HZ

/- ### C1: `SetSpriteAddr` -/

/-- A state whose `v[0]` is 0x10: its low nibble is 0, but the code uses
the whole register value. -/
def c1cex : Chip8 := { baseState with v := fun q => if q = 0 then 16 else 0 }

/-- C1, counterexample.  The claim predicts `I = 5 * (V0 % 16) = 0` after
`SetSpriteAddr(0)` on a state with `V0 = 0x10`; the code computes
`I = V0 * 5 = 80` from the whole register value, never masking the low
nibble (src/chip8.rs lines 313-316). -/
theorem setSpriteAddr_low_nibble_counterexample :
    iOf (execute (.SetSpriteAddr 0) 0 c1cex) = 80 ∧ 5 * (c1cex.v 0 % 16) = 0 := by
  decide

/-- C1, amended: for every state and register index `x` with a u8 value in
`Vx`, `SetSpriteAddr(x)` sets `I` to `5 * Vx`, using the full register
value (no low-nibble masking). -/
theorem setSpriteAddr_times_five (s : Chip8) (x : Fin 16) (rnd : Nat)
    (s' : Chip8) (hv : s.v x < 256)
    (hex : execute (.SetSpriteAddr x) rnd s = some s') : s'.i = 5 * s.v x := by
  simp only [execute, executeInsn, Option.map_some'] at hex
  cases hex
  simp only [u16mod]
  omega

/-- A state whose `v[0]` is 7, for exercising `setSpriteAddr_times_five`. -/
def c1w : Chip8 := { baseState with v := fun q => if q = 0 then 7 else 0 }

/-- Result state of `SetSpriteAddr(0)` on `c1w`. -/
def c1wRes : Chip8 := (execute (.SetSpriteAddr 0) 0 c1w).getD c1w

/-- C1, witness for `setSpriteAddr_times_five` at `V0 = 7`. -/
theorem setSpriteAddr_times_five_witness :
    c1w.v 0 < 256 ∧ c1wRes.i = 5 * c1w.v 0 :=
  ⟨by decide, setSpriteAddr_times_five c1w 0 0 c1wRes (by decide) rfl⟩

/- ### C2: stack faults -/

/-- A state with an empty stack and a nonzero pc. -/
def c2cex : Chip8 := { baseState with pc := 0x300 }

/-- A state with a full stack (`sp = 16`). -/
def c2cexFull : Chip8 := { baseState with sp := 16, pc := 0x300 }

/-- C2, counterexample.  `Return` on an empty stack and `Call` on a full
stack do not produce an explicit recoverable error: `Chip8::execute`
returns no error value at all (its Rust type is `()`), and both cases hit
a panic — `self.sp -= 1` underflows the u8 stack pointer and
`self.stack[self.sp]` indexes out of bounds (src/chip8.rs lines 263-267
and 273-277).  The embedding renders that panic as `none`. -/
theorem stack_fault_explicit_error_counterexample :
    execute .Return 0 c2cex = none ∧ execute (.Call 0) 0 c2cexFull = none :=
  ⟨rfl, rfl⟩

/-- C2, amended: `Return` with `sp = 0` and `Call` with `sp = 16` panic
(u8 underflow followed by an out-of-bounds stack index, and an
out-of-bounds stack write, respectively), aborting the host process; no
explicit error value fatal only to the current program exists. -/
theorem stack_fault_panics (s : Chip8) (rnd addr : Nat) :
    (s.sp = 0 → execute .Return rnd s = none) ∧
    (s.sp = 16 → execute (.Call addr) rnd s = none) := by
  constructor <;> intro h <;> simp [execute, executeInsn, h]

/-- A state with a full stack for the `Call` half of the witness. -/
def c2w16 : Chip8 := { baseState with sp := 16 }

/-- C2, witness for `stack_fault_panics` on the zeroed start state
(empty stack) and on a full-stack state. -/
theorem stack_fault_panics_witness :
    execute .Return 0 baseState = none ∧ execute (.Call 512) 0 c2w16 = none :=
  ⟨(stack_fault_panics baseState 0 512).1 rfl, (stack_fault_panics c2w16 0 512).2 rfl⟩

/- ### C3: Add/Sub carry and borrow flags -/

/-- A state with `V15 = 0xFF` and `V0 = 0x01`: the claim instantiated at
`x = 15` makes the operand register the flag register itself. -/
def c3pre : Chip8 :=
  { baseState with v := fun q => if q = 15 then 255 else if q = 0 then 1 else 0 }

/-- C3, counterexample.  At `x = 15`, `y = 0` the pre-state satisfies
`Vx = 0xFF`, `Vy = 0x01`, but after `Add(15, 0)` the register `Vx = VF`
holds the carry flag 1, not the claimed result 0x00: the flag write
`self.v[0xf] = ...` overwrites the result (src/chip8.rs lines 417-422). -/
theorem add_flag_overwrite_counterexample :
    c3pre.v 15 = 255 ∧ c3pre.v 0 = 1 ∧
      vOf (execute (.Add 15 0) 0 c3pre) 15 ≠ 0 := by
  decide

/-- C3, amended: for all register indices `x ≠ 0xF` and `y` with
`Vx = 0xFF` and `Vy = 0x01`, `Add(x, y)` stores 0x00 in `Vx` and sets
`VF = 1`, and `Sub(x, y)` stores 0xFE in `Vx` and sets `VF = 1`
(no borrow). -/
theorem add_sub_flag_semantics (s : Chip8) (x y : Fin 16) (rnd : Nat)
    (hx : x ≠ 15) (hvx : s.v x = 255) (hvy : s.v y = 1) :
    vOf (execute (.Add x y) rnd s) x = 0 ∧
      vOf (execute (.Add x y) rnd s) 15 = 1 ∧
      vOf (execute (.Sub x y) rnd s) x = 254 ∧
      vOf (execute (.Sub x y) rnd s) 15 = 1 := by
  simp [execute, executeInsn, vOf, hvx, hvy, hx]

/-- A state with `V0 = 0xFF` and `V1 = 0x01`. -/
def c3w : Chip8 :=
  { baseState with v := fun q => if q = 0 then 255 else if q = 1 then 1 else 0 }

/-- C3, witness for `add_sub_flag_semantics` at `x = 0`, `y = 1`. -/
theorem add_sub_flag_semantics_witness :
    vOf (execute (.Add 0 1) 0 c3w) 0 = 0 ∧
      vOf (execute (.Add 0 1) 0 c3w) 15 = 1 ∧
      vOf (execute (.Sub 0 1) 0 c3w) 0 = 254 ∧
      vOf (execute (.Sub 0 1) 0 c3w) 15 = 1 :=
  add_sub_flag_semantics c3w 0 1 0 (by decide) rfl rfl

/- ### C4: the default speed constant -/

/-- C4: the default rate `CHIP8_SPEED_HZ = 1000` is not a multiple of 60
(`1000 % 60 = 40`), although the timer gate comment in `Chip8::step`
(src/chip8.rs line 490) and the spec both require the 60 Hz cadence that
only an exact multiple of 60 provides; with 1000 the timers tick every
`1000 / 60 = 16` cycles, i.e. at 62.5 Hz. -/
theorem chip8_speed_hz_not_multiple_of_60 :
    CHIP8_SPEED_HZ % 60 = 40 ∧ CHIP8_SPEED_HZ % 60 ≠ 0 := by
  decide

/- ### C10: shifts targeting the flag register -/

/-- C10: when `Shl` or `Shr` operates on `V15` itself, the final `VF`
value is the bit shifted out of the pre-shift value (the high bit
`v / 128` for `Shl`, the low bit `v % 2` for `Shr`); the shifted result
written first is overwritten by the flag write (src/chip8.rs lines
355-367). -/
theorem shift_flag_register_self (s : Chip8) (rnd : Nat) (s₁ s₂ : Chip8)
    (hv : s.v 15 < 256)
    (h₁ : execute (.Shl 15) rnd s = some s₁)
    (h₂ : execute (.Shr 15) rnd s = some s₂) :
    s₁.v 15 = s.v 15 / 128 ∧ s₂.v 15 = s.v 15 % 2 := by
  simp only [execute, executeInsn, Option.map_some'] at h₁ h₂
  cases h₁
  cases h₂
  constructor
  · simp [Nat.shiftRight_eq_div_pow, Nat.and_one_is_mod]
    omega
  · simp [Nat.and_one_is_mod]

/-- A state with `V15 = 0b10000001`. -/
def c10w : Chip8 := { baseState with v := fun q => if q = 15 then 129 else 0 }

/-- Result state of `Shl(15)` on `c10w`. -/
def c10wShl : Chip8 := (execute (.Shl 15) 0 c10w).getD c10w

/-- Result state of `Shr(15)` on `c10w`. -/
def c10wShr : Chip8 := (execute (.Shr 15) 0 c10w).getD c10w

/-- C10, witness for `shift_flag_register_self` at `V15 = 129`: both
shifts leave `VF = 1`. -/
theorem shift_flag_register_self_witness :
    c10w.v 15 < 256 ∧ c10wShl.v 15 = c10w.v 15 / 128 ∧
      c10wShr.v 15 = c10w.v 15 % 2 :=
  ⟨by decide,
   (shift_flag_register_self c10w 0 c10wShl c10wShr (by decide) rfl rfl).1,
   (shift_flag_register_self c10w 0 c10wShl c10wShr (by decide) rfl rfl).2⟩

/- ### C7: `WaitKeypress` -/

/-- C7: with a pending key-released event `k` (a logical key, `k < 16`),
`WaitKeypress(x)` clears `keypad[k]`, stores `k` in `Vx` and leaves the
post-fetch `pc` unchanged; with no pending event it rewinds `pc` by 2 and
leaves the registers and the keypad unchanged (src/chip8.rs lines
332-339). -/
theorem wait_keypress_semantics (s : Chip8) (x : Fin 16) (rnd : Nat) :
    (∀ k : Fin 16, s.key_pressed = some k.val →
      vOf (execute (.WaitKeypress x) rnd s) x = k.val ∧
      keypadOf (execute (.WaitKeypress x) rnd s) k = false ∧
      pcOf (execute (.WaitKeypress x) rnd s) = s.pc) ∧
    (s.key_pressed = none → 2 ≤ s.pc → s.pc < 65536 →
      pcOf (execute (.WaitKeypress x) rnd s) = s.pc - 2 ∧
      (∀ q, vOf (execute (.WaitKeypress x) rnd s) q = s.v q) ∧
      (∀ q, keypadOf (execute (.WaitKeypress x) rnd s) q = s.keypad q)) := by
  constructor
  · intro k hk
    have hm : k.val % 256 = k.val := Nat.mod_eq_of_lt (lt_trans k.isLt (by norm_num))
    simp [execute, executeInsn, hk, vOf, keypadOf, pcOf, k.isLt, hm, Fin.eta]
  · intro hk h2 hlt
    simp [execute, executeInsn, hk, vOf, keypadOf, pcOf]
    omega

/-- A state with a pending release of key 5 (whose pad flag is still
set). -/
def c7some : Chip8 :=
  { baseState with
      key_pressed := some 5,
      keypad := fun q => if q = 5 then true else false }

/-- C7, witness for `wait_keypress_semantics`: key 5 pending with
destination `V2`, and the no-event rewind on the start state. -/
theorem wait_keypress_semantics_witness :
    vOf (execute (.WaitKeypress 2) 0 c7some) 2 = 5 ∧
      keypadOf (execute (.WaitKeypress 2) 0 c7some) 5 = false ∧
      pcOf (execute (.WaitKeypress 2) 0 c7some) = c7some.pc ∧
      pcOf (execute (.WaitKeypress 2) 0 baseState) = baseState.pc - 2 :=
  ⟨((wait_keypress_semantics c7some 2 0).1 5 (by decide)).1,
   ((wait_keypress_semantics c7some 2 0).1 5 (by decide)).2.1,
   ((wait_keypress_semantics c7some 2 0).1 5 (by decide)).2.2,
   ((wait_keypress_semantics baseState 2 0).2 rfl (by decide) (by decide)).1⟩

/- ### C8: the 60 Hz timer gate -/

/-- C8: whenever the timer gate of `Chip8::step` runs without the
division-by-zero panic, it saturating-decrements both timers by exactly 1
precisely when `cycle_count % (hz / 60) == 0` (the counter having already
been incremented this cycle), and leaves both timers unchanged on every
other cycle (src/chip8.rs lines 490-494); `step` runs this gate exactly
once per cycle, after the instruction. -/
theorem timer_gate_semantics (s s' : Chip8) (h : timerTick s = some s') :
    (s.cycle_count % (s.hz / 60) = 0 →
      s'.delay_timer = s.delay_timer - 1 ∧ s'.sound_timer = s.sound_timer - 1) ∧
    (s.cycle_count % (s.hz / 60) ≠ 0 →
      s'.delay_timer = s.delay_timer ∧ s'.sound_timer = s.sound_timer) := by
  by_cases h0 : s.hz / 60 = 0
  · simp only [timerTick, if_pos h0] at h
    exact Option.noConfusion h
  · by_cases hg : s.cycle_count % (s.hz / 60) = 0
    · simp only [timerTick, if_neg h0, if_pos hg] at h
      cases h
      exact ⟨fun _ => ⟨rfl, rfl⟩, fun hn => absurd hg hn⟩
    · simp only [timerTick, if_neg h0, if_neg hg] at h
      cases h
      exact ⟨fun hz => absurd hz hg, fun _ => ⟨rfl, rfl⟩⟩

/-- A state one cycle after the 16th instruction at the default rate:
`16 % (1000 / 60) = 0`, so the gate fires; the sound timer is already 0
and saturates. -/
def c8w : Chip8 :=
  { baseState with cycle_count := 16, delay_timer := 5, sound_timer := 0 }

/-- Result of the timer gate on `c8w`. -/
def c8wRes : Chip8 := (timerTick c8w).getD c8w

/-- A state on a non-gate cycle (`17 % 16 ≠ 0`). -/
def c8wOff : Chip8 :=
  { baseState with cycle_count := 17, delay_timer := 5, sound_timer := 0 }

/-- Result of the timer gate on `c8wOff`. -/
def c8wOffRes : Chip8 := (timerTick c8wOff).getD c8wOff

/-- C8, witness for `timer_gate_semantics` on a gate cycle and on a
non-gate cycle. -/
theorem timer_gate_semantics_witness :
    (c8wRes.delay_timer = c8w.delay_timer - 1 ∧
      c8wRes.sound_timer = c8w.sound_timer - 1) ∧
    (c8wOffRes.delay_timer = c8wOff.delay_timer ∧
      c8wOffRes.sound_timer = c8wOff.sound_timer) :=
  ⟨(timer_gate_semantics c8w c8wRes rfl).1 (by decide),
   (timer_gate_semantics c8wOff c8wOffRes rfl).2 (by decide)⟩

/- ### C9: the pacing throttle -/

/-- C9, counterexample.  The claim routes `elapsed = duty_cycle` through
its no-sleep branch, but `Duration::checked_sub` returns `Some(0)` there,
so the code takes the fast branch: with debt already above the 25 ms
threshold it sleeps for the full debt and resets it (src/sleep.rs lines
25-27 and 59-66).  Durations in nanoseconds: duty 1000, threshold
25000000, debt 25000001, elapsed 1000. -/
theorem sleeper_boundary_counterexample :
    (1000 : Nat) ≥ 1000 ∧
      (Sleeper.sleep ⟨1000, 25000000, 25000001⟩ 1000).2 = some 25000001 ∧
      (Sleeper.sleep ⟨1000, 25000000, 25000001⟩ 1000).1.sleep_debt = 0 := by
  decide

/-- C9, amended: with `elapsed ≤ duty_cycle` (not strictly less) the debt
grows by `duty_cycle - elapsed` and a sleep of the full accumulated debt,
followed by a debt reset to zero, happens exactly when the new debt
exceeds the threshold; with `elapsed > duty_cycle` no sleep happens and
the debt becomes `debt - (elapsed - duty_cycle)`, truncated at zero
(src/sleep.rs lines 22-66). -/
theorem sleeper_debt_model (sl : Sleeper) (e : Nat) :
    (e ≤ sl.sleep_duty_cycle →
      (sl.sleep_threshold < sl.sleep_debt + (sl.sleep_duty_cycle - e) →
        Sleeper.sleep sl e =
          ({ sl with sleep_debt := 0 },
            some (sl.sleep_debt + (sl.sleep_duty_cycle - e)))) ∧
      (sl.sleep_debt + (sl.sleep_duty_cycle - e) ≤ sl.sleep_threshold →
        Sleeper.sleep sl e =
          ({ sl with sleep_debt := sl.sleep_debt + (sl.sleep_duty_cycle - e) },
            none))) ∧
    (sl.sleep_duty_cycle < e →
      Sleeper.sleep sl e =
        ({ sl with sleep_debt := sl.sleep_debt - (e - sl.sleep_duty_cycle) },
          none)) := by
  refine ⟨fun hfast => ⟨fun hgt => ?_, fun hle => ?_⟩, fun hslow => ?_⟩
  · simp [Sleeper.sleep, Sleeper.sleepInternal, hfast, hgt]
  · simp [Sleeper.sleep, Sleeper.sleepInternal, hfast, Nat.not_lt.mpr hle]
  · simp only [Sleeper.sleep, Nat.not_le.mpr hslow, if_false]
    split_ifs with hcomp
    · rfl
    · have h0 : sl.sleep_debt - (e - sl.sleep_duty_cycle) = 0 := by omega
      rw [h0]

/-- C9, witness for `sleeper_debt_model`: a fast call that crosses the
threshold and sleeps, a fast call that only accumulates, and a slow call
whose slowdown exceeds the debt. -/
theorem sleeper_debt_model_witness :
    Sleeper.sleep ⟨100, 25, 0⟩ 40 = (⟨100, 25, 0⟩, some 60) ∧
      Sleeper.sleep ⟨100, 25, 0⟩ 90 = (⟨100, 25, 10⟩, none) ∧
      Sleeper.sleep ⟨100, 25, 7⟩ 130 = (⟨100, 25, 0⟩, none) :=
  ⟨((sleeper_debt_model ⟨100, 25, 0⟩ 40).1 (by decide)).1 (by decide),
   ((sleeper_debt_model ⟨100, 25, 0⟩ 90).1 (by decide)).2 (by decide),
   (sleeper_debt_model ⟨100, 25, 7⟩ 130).2 (by decide)⟩

/- ### C5: Draw with column wraparound and XOR erase -/

/-- All-OFF framebuffer, `V0 = 60` (the x coordinate), `V1 = 0` (the y
coordinate), and the one-row sprite byte 0xFF at `memory[0]` with
`I = 0`. -/
def c5pre : Chip8 :=
  { baseState with
      v := fun q => if q = 0 then 60 else 0,
      memory := fun a => if a = 0 then 255 else 0 }

/-- First `Draw(0, 1, 1)` on `c5pre`. -/
def c5res1 : Option Chip8 := execute (.Draw 0 1 1) 0 c5pre

/-- State after the first draw. -/
def c5mid : Chip8 := c5res1.getD c5pre

/-- Second identical `Draw(0, 1, 1)`. -/
def c5res2 : Option Chip8 := execute (.Draw 0 1 1) 0 c5mid

/-- C5: drawing the 8×1 sprite 0xFF at (60, 0) on an all-OFF frame turns
exactly the cells x ∈ {60, 61, 62, 63, 0, 1, 2, 3}, y = 0 ON (columns
wrap modulo 64); the identical second draw XOR-clears all eight cells and
sets `VF = 1` from the collisions (src/chip8.rs lines 443-477). -/
theorem draw_wrap_and_xor_clear :
    (∀ r c, fbOf c5res1 r c =
      if r.val = 0 ∧ (c.val ≤ 3 ∨ 60 ≤ c.val) then 255 else 0) ∧
    (∀ r c, fbOf c5res2 r c = 0) ∧ vOf c5res2 15 = 1 := by
  decide

/- ### C6: the Draw collision flag -/

/-- Shorthand for the framebuffer grid type. -/
abbrev Frame := Fin CHIP8_HEIGHT → Fin CHIP8_WIDTH → Nat

/-- Two column offsets below the screen width that land on the same
wrapped column are equal. -/
theorem colFin_inj (xv k k' : Nat) (hk : k < 64) (hk' : k' < 64)
    (h : colFin xv k = colFin xv k') : k = k' := by
  have hv : (xv + k) % CHIP8_WIDTH = (xv + k') % CHIP8_WIDTH := congrArg Fin.val h
  simp only [CHIP8_WIDTH] at hv
  omega

/-- Two row offsets below the screen height that land on the same wrapped
row are equal. -/
theorem rowFin_inj (yv j j' : Nat) (hj : j < 32) (hj' : j' < 32)
    (h : rowFin yv j = rowFin yv j') : j = j' := by
  have hv : (yv + j) % CHIP8_HEIGHT = (yv + j') % CHIP8_HEIGHT := congrArg Fin.val h
  simp only [CHIP8_HEIGHT] at hv
  omega

/-- `drawCell` leaves every row other than its target row unchanged. -/
theorem drawCell_fst_ne_row (xv : Nat) (yoff : Fin CHIP8_HEIGHT) (line k : Nat)
    (acc : Frame × Nat) (r : Fin CHIP8_HEIGHT) (c : Fin CHIP8_WIDTH)
    (h : r ≠ yoff) : (drawCell xv yoff line k acc).1 r c = acc.1 r c := by
  simp [drawCell, h]

/-- `drawCell` leaves every column other than its target column
unchanged. -/
theorem drawCell_fst_ne_col (xv : Nat) (yoff : Fin CHIP8_HEIGHT) (line k : Nat)
    (acc : Frame × Nat) (r : Fin CHIP8_HEIGHT) (c : Fin CHIP8_WIDTH)
    (h : c ≠ colFin xv k) : (drawCell xv yoff line k acc).1 r c = acc.1 r c := by
  simp [drawCell, h]

/-- The collision flag after one `drawCell`, in terms of the cell value
the step reads. -/
theorem drawCell_snd (xv : Nat) (yoff : Fin CHIP8_HEIGHT) (line k : Nat)
    (acc : Frame × Nat) :
    (drawCell xv yoff line k acc).2 =
      if acc.1 yoff (colFin xv k) = 255 ∧ spriteBit line k = 1 then 1
      else acc.2 := by
  by_cases hf : acc.1 yoff (colFin xv k) = 255 <;>
    by_cases hs : spriteBit line k = 1 <;> simp [drawCell, hf, hs]

/-- A fold of `drawCell` steps touches only its target row. -/
theorem foldCell_fst_ne_row (xv : Nat) (yoff : Fin CHIP8_HEIGHT) (line : Nat)
    (r : Fin CHIP8_HEIGHT) (c : Fin CHIP8_WIDTH) (h : r ≠ yoff) :
    ∀ (ks : List Nat) (acc : Frame × Nat),
      (ks.foldl (fun a k => drawCell xv yoff line k a) acc).1 r c = acc.1 r c
  | [], _ => rfl
  | k :: t, acc => by
      rw [List.foldl_cons]
      rw [foldCell_fst_ne_row xv yoff line r c h t (drawCell xv yoff line k acc)]
      exact drawCell_fst_ne_row xv yoff line k acc r c h

/-- Over pristine, pairwise-distinct columns, the folded collision flag
becomes 1 exactly when some processed cell had both the pre-fold value
255 and its sprite bit set; otherwise it is left untouched. -/
theorem foldCell_snd_spec (xv : Nat) (yoff : Fin CHIP8_HEIGHT) (line : Nat)
    (fb0 : Frame) :
    ∀ (ks : List Nat) (acc : Frame × Nat), ks.Nodup →
      (∀ k ∈ ks, acc.1 yoff (colFin xv k) = fb0 yoff (colFin xv k)) →
      (∀ k ∈ ks, ∀ k' ∈ ks, colFin xv k = colFin xv k' → k = k') →
      ((∃ k ∈ ks, fb0 yoff (colFin xv k) = 255 ∧ spriteBit line k = 1) →
        (ks.foldl (fun a k => drawCell xv yoff line k a) acc).2 = 1) ∧
      (¬ (∃ k ∈ ks, fb0 yoff (colFin xv k) = 255 ∧ spriteBit line k = 1) →
        (ks.foldl (fun a k => drawCell xv yoff line k a) acc).2 = acc.2) := by
  intro ks
  induction ks with
  | nil =>
      intro acc _ _ _
      exact ⟨fun hex => absurd hex (by simp), fun _ => rfl⟩
  | cons k t ih =>
      intro acc hnd hpr hinj
      have hknot : k ∉ t := (List.nodup_cons.mp hnd).1
      have hndt : t.Nodup := (List.nodup_cons.mp hnd).2
      have hk0 : acc.1 yoff (colFin xv k) = fb0 yoff (colFin xv k) :=
        hpr k (List.mem_cons_self k t)
      have hprt : ∀ k' ∈ t,
          (drawCell xv yoff line k acc).1 yoff (colFin xv k') =
            fb0 yoff (colFin xv k') := by
        intro k' hk'
        have hne : colFin xv k' ≠ colFin xv k := by
          intro heq
          have hkk : k' = k :=
            hinj k' (List.mem_cons_of_mem k hk') k (List.mem_cons_self k t) heq
          exact hknot (hkk ▸ hk')
        rw [drawCell_fst_ne_col xv yoff line k acc yoff (colFin xv k') hne]
        exact hpr k' (List.mem_cons_of_mem k hk')
      have hinjt : ∀ a ∈ t, ∀ b ∈ t, colFin xv a = colFin xv b → a = b :=
        fun a ha b hb =>
          hinj a (List.mem_cons_of_mem k ha) b (List.mem_cons_of_mem k hb)
      obtain ⟨iht1, iht2⟩ := ih (drawCell xv yoff line k acc) hndt hprt hinjt
      simp only [List.foldl_cons]
      constructor
      · rintro ⟨k0, hk0mem, hcond⟩
        rcases List.mem_cons.mp hk0mem with heq | hmem
        · subst heq
          by_cases hex : ∃ k' ∈ t,
              fb0 yoff (colFin xv k') = 255 ∧ spriteBit line k' = 1
          · exact iht1 hex
          · rw [iht2 hex, drawCell_snd, hk0]
            exact if_pos hcond
        · exact iht1 ⟨k0, hmem, hcond⟩
      · intro hno
        have hnot_head : ¬(fb0 yoff (colFin xv k) = 255 ∧ spriteBit line k = 1) :=
          fun hc => hno ⟨k, List.mem_cons_self k t, hc⟩
        have hnot_t : ¬∃ k' ∈ t,
            fb0 yoff (colFin xv k') = 255 ∧ spriteBit line k' = 1 := by
          rintro ⟨k', hm, hc⟩
          exact hno ⟨k', List.mem_cons_of_mem k hm, hc⟩
        rw [iht2 hnot_t, drawCell_snd, hk0]
        exact if_neg hnot_head

/-- Over pristine, pairwise-distinct rows, the collision flag folded over
whole sprite rows becomes 1 exactly when some processed cell had both the
pre-fold cell value 255 and its sprite bit set. -/
theorem foldRow_snd_spec (mem : Nat → Nat) (i xv yv : Nat) (fb0 : Frame) :
    ∀ (js : List Nat) (acc : Frame × Nat), js.Nodup →
      (∀ j ∈ js, ∀ c, acc.1 (rowFin yv j) c = fb0 (rowFin yv j) c) →
      (∀ j ∈ js, ∀ j' ∈ js, rowFin yv j = rowFin yv j' → j = j') →
      ((∃ j ∈ js, ∃ k, k < 8 ∧ fb0 (rowFin yv j) (colFin xv k) = 255 ∧
          spriteBit (mem (i + j)) k = 1) →
        (js.foldl (fun a j => drawRow xv (rowFin yv j) (mem (i + j)) a) acc).2 = 1) ∧
      (¬ (∃ j ∈ js, ∃ k, k < 8 ∧ fb0 (rowFin yv j) (colFin xv k) = 255 ∧
          spriteBit (mem (i + j)) k = 1) →
        (js.foldl (fun a j => drawRow xv (rowFin yv j) (mem (i + j)) a) acc).2 =
          acc.2) := by
  intro js
  induction js with
  | nil =>
      intro acc _ _ _
      exact ⟨fun hex => absurd hex (by simp), fun _ => rfl⟩
  | cons j t ih =>
      intro acc hnd hpr hinj
      have hjnot : j ∉ t := (List.nodup_cons.mp hnd).1
      have hndt : t.Nodup := (List.nodup_cons.mp hnd).2
      have hrowpr : ∀ k ∈ List.range 8,
          acc.1 (rowFin yv j) (colFin xv k) = fb0 (rowFin yv j) (colFin xv k) :=
        fun k _ => hpr j (List.mem_cons_self j t) (colFin xv k)
      have hrowinj : ∀ k ∈ List.range 8, ∀ k' ∈ List.range 8,
          colFin xv k = colFin xv k' → k = k' := by
        intro k hk k' hk' h
        have h1 : k < 8 := List.mem_range.mp hk
        have h2 : k' < 8 := List.mem_range.mp hk'
        exact colFin_inj xv k k' (by omega) (by omega) h
      obtain ⟨hr1, hr2⟩ := foldCell_snd_spec xv (rowFin yv j) (mem (i + j)) fb0
        (List.range 8) acc (List.nodup_range 8) hrowpr hrowinj
      have hprt : ∀ j' ∈ t, ∀ c,
          (drawRow xv (rowFin yv j) (mem (i + j)) acc).1 (rowFin yv j') c =
            fb0 (rowFin yv j') c := by
        intro j' hj' c
        have hne : rowFin yv j' ≠ rowFin yv j := by
          intro heq
          have hjj : j' = j :=
            hinj j' (List.mem_cons_of_mem j hj') j (List.mem_cons_self j t) heq
          exact hjnot (hjj ▸ hj')
        rw [drawRow,
          foldCell_fst_ne_row xv (rowFin yv j) (mem (i + j)) (rowFin yv j') c hne
            (List.range 8) acc]
        exact hpr j' (List.mem_cons_of_mem j hj') c
      have hinjt : ∀ a ∈ t, ∀ b ∈ t, rowFin yv a = rowFin yv b → a = b :=
        fun a ha b hb =>
          hinj a (List.mem_cons_of_mem j ha) b (List.mem_cons_of_mem j hb)
      obtain ⟨iht1, iht2⟩ :=
        ih (drawRow xv (rowFin yv j) (mem (i + j)) acc) hndt hprt hinjt
      simp only [List.foldl_cons]
      constructor
      · rintro ⟨j0, hj0mem, k0, hk0, hcond⟩
        rcases List.mem_cons.mp hj0mem with heq | hmem
        · subst heq
          by_cases hex : ∃ j' ∈ t, ∃ k, k < 8 ∧
              fb0 (rowFin yv j') (colFin xv k) = 255 ∧
              spriteBit (mem (i + j')) k = 1
          · exact iht1 hex
          · rw [iht2 hex, drawRow]
            exact hr1 ⟨k0, List.mem_range.mpr hk0, hcond⟩
        · exact iht1 ⟨j0, hmem, k0, hk0, hcond⟩
      · intro hno
        have hnot_head : ¬∃ k ∈ List.range 8,
            fb0 (rowFin yv j) (colFin xv k) = 255 ∧
              spriteBit (mem (i + j)) k = 1 := by
          rintro ⟨k, hk, hc⟩
          exact hno ⟨j, List.mem_cons_self j t, k, List.mem_range.mp hk, hc⟩
        have hnot_t : ¬∃ j' ∈ t, ∃ k, k < 8 ∧
            fb0 (rowFin yv j') (colFin xv k) = 255 ∧
              spriteBit (mem (i + j')) k = 1 := by
          rintro ⟨j', hm, k, hk, hc⟩
          exact hno ⟨j', List.mem_cons_of_mem j hm, k, hk, hc⟩
        rw [iht2 hnot_t, drawRow]
        exact hr2 hnot_head

/-- A pre-state collision of `Draw(x, y, n)`: some sprite pixel whose bit
is set lands on a cell that is already ON in the pre-instruction
framebuffer. -/
def drawCollision (s : Chip8) (x y : Fin 16) (n : Nat) : Prop :=
  ∃ j : Fin n, ∃ k : Fin 8,
    s.fb (rowFin (s.v y) j.val) (colFin (s.v x) k.val) = 255 ∧
    spriteBit (s.memory (s.i + j.val)) k.val = 1

instance instDecidableDrawCollision (s : Chip8) (x y : Fin 16) (n : Nat) :
    Decidable (drawCollision s x y n) := by
  unfold drawCollision
  infer_instance

/-- C6: after any `Draw` of at most 15 rows (the decoder only produces
nibble row counts) that completes without a panic, `VF = 1` when some
drawn pixel had both the existing framebuffer cell ON and the sprite bit
ON, and `VF` keeps its pre-instruction value when no such pixel exists —
the code never resets it to 0 (src/chip8.rs lines 470-473). -/
theorem draw_collision_flag (s : Chip8) (x y : Fin 16) (n rnd : Nat)
    (s' : Chip8) (hn : n ≤ 15)
    (hex : execute (.Draw x y n) rnd s = some s') :
    (drawCollision s x y n → s'.v 15 = 1) ∧
    (¬ drawCollision s x y n → s'.v 15 = s.v 15) := by
  simp only [execute, executeInsn] at hex
  by_cases hg : s.i + n ≤ CHIP8_MEMORY_SIZE
  · rw [if_pos hg, Option.map_some'] at hex
    cases hex
    have hpr : ∀ j ∈ List.range n, ∀ c,
        (s.fb, s.v 15).1 (rowFin (s.v y) j) c = s.fb (rowFin (s.v y) j) c :=
      fun _ _ _ => rfl
    have hinj : ∀ j ∈ List.range n, ∀ j' ∈ List.range n,
        rowFin (s.v y) j = rowFin (s.v y) j' → j = j' := by
      intro j hj j' hj' h
      have h1 : j < n := List.mem_range.mp hj
      have h2 : j' < n := List.mem_range.mp hj'
      exact rowFin_inj (s.v y) j j' (by omega) (by omega) h
    obtain ⟨h1, h2⟩ := foldRow_snd_spec s.memory s.i (s.v x) (s.v y) s.fb
      (List.range n) (s.fb, s.v 15) (List.nodup_range n) hpr hinj
    have hiff : drawCollision s x y n ↔
        ∃ j ∈ List.range n, ∃ k, k < 8 ∧
          s.fb (rowFin (s.v y) j) (colFin (s.v x) k) = 255 ∧
          spriteBit (s.memory (s.i + j)) k = 1 := by
      constructor
      · rintro ⟨j, k, hc1, hc2⟩
        exact ⟨j.val, List.mem_range.mpr j.isLt, k.val, k.isLt, hc1, hc2⟩
      · rintro ⟨j, hj, k, hk, hc1, hc2⟩
        exact ⟨⟨j, List.mem_range.mp hj⟩, ⟨k, hk⟩, hc1, hc2⟩
    constructor
    · intro hc
      simp only [drawSprite]
      simpa using h1 (hiff.mp hc)
    · intro hc
      simp only [drawSprite]
      simpa using h2 fun hex0 => hc (hiff.mpr hex0)
  · rw [if_neg hg] at hex
    simp at hex

/-- An all-OFF frame with the sprite byte 0xFF at `memory[0]` and the draw
position (0, 0): no collision is possible. -/
def c6w : Chip8 := { baseState with memory := fun a => if a = 0 then 255 else 0 }

/-- Result of `Draw(0, 1, 1)` on `c6w`. -/
def c6wRes : Chip8 := (execute (.Draw 0 1 1) 0 c6w).getD c6w

/-- C6, witness for `draw_collision_flag`: a collision-free draw leaves
`VF` at its prior value. -/
theorem draw_collision_flag_witness :
    (1 : Nat) ≤ 15 ∧ c6wRes.v 15 = c6w.v 15 :=
  ⟨by decide,
   (draw_collision_flag c6w 0 1 1 0 c6wRes (by decide) rfl).2 (by decide)⟩

end Chip8Emu
